import Mathlib

/-!
# Formal model of the powermoniter core

Shallow embedding of the powermoniter repository (power-meter telemetry
ingestion and query service).  Each definition is translated from the
Python source under the file and symbol given in its doc comment.
Timestamps are modelled as integer UTC epoch seconds; Python `Decimal`
values are modelled as rationals; payload maps are association lists
(Python dicts preserve insertion order, so a list of pairs is the
faithful model).
-/

namespace Powermoniter

/-- Model of the JSON/Python values that appear inside a payload map:
strings, ints, and nested objects.  Nested objects are association
lists in insertion order, as in a Python `dict`. -/
inductive PyVal : Type where
  | str : String → PyVal
  | int : Int → PyVal
  | dict : List (String × PyVal) → PyVal

/-- A payload is a Python `dict` (association list in insertion order). -/
abbrev Payload := List (String × PyVal)

mutual

/-- Boolean equality on payload values. -/
def PyVal.beq : PyVal → PyVal → Bool
  | PyVal.str a, PyVal.str b => a == b
  | PyVal.int a, PyVal.int b => a == b
  | PyVal.dict a, PyVal.dict b => beqEntries a b
  | _, _ => false

/-- Boolean equality on dict entry lists. -/
def beqEntries : List (String × PyVal) → List (String × PyVal) → Bool
  | [], [] => true
  | (k, v) :: r, (k', v') :: r' => k == k' && PyVal.beq v v' && beqEntries r r'
  | _, _ => false

end

mutual

theorem PyVal.beq_iff : ∀ a b : PyVal, PyVal.beq a b = true ↔ a = b
  | PyVal.str a, PyVal.str b => by simp [PyVal.beq]
  | PyVal.str _, PyVal.int _ => by simp [PyVal.beq]
  | PyVal.str _, PyVal.dict _ => by simp [PyVal.beq]
  | PyVal.int _, PyVal.str _ => by simp [PyVal.beq]
  | PyVal.int a, PyVal.int b => by simp [PyVal.beq]
  | PyVal.int _, PyVal.dict _ => by simp [PyVal.beq]
  | PyVal.dict _, PyVal.str _ => by simp [PyVal.beq]
  | PyVal.dict _, PyVal.int _ => by simp [PyVal.beq]
  | PyVal.dict a, PyVal.dict b => by
      simp only [PyVal.beq]
      rw [beqEntries_iff a b]
      constructor
      · intro h; rw [h]
      · intro h; injection h

theorem beqEntries_iff : ∀ a b : List (String × PyVal), beqEntries a b = true ↔ a = b
  | [], [] => by simp [beqEntries]
  | [], (_, _) :: _ => by simp [beqEntries]
  | (_, _) :: _, [] => by simp [beqEntries]
  | (k, v) :: r, (k', v') :: r' => by
      simp only [beqEntries, Bool.and_eq_true, beq_iff_eq]
      rw [PyVal.beq_iff v v', beqEntries_iff r r']
      constructor
      · rintro ⟨⟨h1, h2⟩, h3⟩; rw [h1, h2, h3]
      · intro h
        injection h with h1 h2
        injection h1 with hk hv
        exact ⟨⟨hk, hv⟩, h2⟩

end

instance : DecidableEq PyVal := fun a b =>
  decidable_of_iff (PyVal.beq a b = true) (PyVal.beq_iff a b)

/-- `dict.get(k)`: first value bound to `k`, if any. -/
def pyGet (p : Payload) (k : String) : Option PyVal :=
  match p with
  | [] => none
  | (k', v) :: rest => if k' = k then some v else pyGet rest k

/-- Python `repr` of a string value restricted to the payload strings the
system exchanges (ASCII without quotes or backslashes): single quotes
around the raw characters. -/
def pyReprStr (s : String) : String :=
  "\x27" ++ s ++ "\x27"

mutual

/-- Python `repr` of a payload value (restricted to the modelled domain:
ASCII strings without quotes/backslashes, ints, nested dicts).  A dict is
rendered in insertion order: `repr` does NOT sort nested keys. -/
def pyReprVal : PyVal → String
  | PyVal.str s => pyReprStr s
  | PyVal.int n => toString n
  | PyVal.dict l => "\x7b" ++ pyReprEntries l ++ "\x7d"

/-- `repr` of the comma-separated entries `\x27k\x27: v` of a dict. -/
def pyReprEntries : List (String × PyVal) → String
  | [] => ""
  | [(k, v)] => pyReprStr k ++ ": " ++ pyReprVal v
  | (k, v) :: rest => pyReprStr k ++ ": " ++ pyReprVal v ++ ", " ++ pyReprEntries rest

end

/-- Python `repr` of a list of `(key, value)` item tuples. -/
def pyReprItems (items : List (String × PyVal)) : String :=
  "[" ++ String.intercalate ", "
      (items.map fun kv => "(" ++ pyReprStr kv.1 ++ ", " ++ pyReprVal kv.2 ++ ")") ++ "]"

/-- Lexicographic comparison of character lists by code point — the
order Python uses on strings. -/
def lexLe : List Char → List Char → Bool
  | [], _ => true
  | _ :: _, [] => false
  | a :: as, b :: bs =>
      if a < b then true
      else if b < a then false
      else lexLe as bs

theorem lexLe_total : ∀ a b : List Char, lexLe a b = true ∨ lexLe b a = true
  | [], _ => Or.inl rfl
  | _ :: _, [] => Or.inr rfl
  | a :: as, b :: bs => by
      rcases lt_trichotomy a b with h | h | h
      · left
        simp [lexLe, h]
      · subst h
        rcases lexLe_total as bs with ih | ih
        · left
          simp [lexLe, lt_irrefl, ih]
        · right
          simp [lexLe, lt_irrefl, ih]
      · right
        simp [lexLe, h]

theorem lexLe_trans : ∀ a b c : List Char,
    lexLe a b = true → lexLe b c = true → lexLe a c = true
  | [], _, _ => fun _ _ => rfl
  | a :: as, [], _ => fun h _ => by simp [lexLe] at h
  | _ :: _, _ :: _, [] => fun _ h => by simp [lexLe] at h
  | a :: as, b :: bs, c :: cs => by
      intro hab hbc
      rcases lt_trichotomy a b with h1 | h1 | h1
      · rcases lt_trichotomy b c with h2 | h2 | h2
        · simp [lexLe, lt_trans h1 h2]
        · subst h2
          simp [lexLe, h1]
        · rw [lexLe, if_neg (by exact fun hc => lt_asymm h2 hc), if_pos h2] at hbc
          cases hbc
      · subst h1
        rcases lt_trichotomy a c with h2 | h2 | h2
        · simp [lexLe, h2]
        · subst h2
          rw [lexLe, if_neg (lt_irrefl a), if_neg (lt_irrefl a)] at hab hbc
          rw [lexLe, if_neg (lt_irrefl a), if_neg (lt_irrefl a)]
          exact lexLe_trans as bs cs hab hbc
        · rw [lexLe, if_neg (by exact fun hc => lt_asymm h2 hc), if_pos h2] at hbc
          cases hbc
      · rw [lexLe, if_neg (by exact fun hc => lt_asymm h1 hc), if_pos h1] at hab
        cases hab

theorem lexLe_antisymm : ∀ a b : List Char,
    lexLe a b = true → lexLe b a = true → a = b
  | [], [] => fun _ _ => rfl
  | [], _ :: _ => fun _ h => by simp [lexLe] at h
  | _ :: _, [] => fun h _ => by simp [lexLe] at h
  | a :: as, b :: bs => by
      intro hab hba
      rcases lt_trichotomy a b with h1 | h1 | h1
      · rw [lexLe, if_neg (by exact fun hc => lt_asymm h1 hc), if_pos h1] at hba
        cases hba
      · subst h1
        rw [lexLe, if_neg (lt_irrefl a), if_neg (lt_irrefl a)] at hab hba
        rw [lexLe_antisymm as bs hab hba]
      · rw [lexLe, if_neg (by exact fun hc => lt_asymm h1 hc), if_pos h1] at hab
        cases hab

/-- The ordering used by Python `sorted(payload.items())`: dict keys are
unique, so the tuples are ordered by their first component, compared as
Python compares strings (lexicographically by code point). -/
def itemLE (a b : String × PyVal) : Prop := lexLe a.1.toList b.1.toList = true

instance : DecidableRel itemLE := fun a b =>
  inferInstanceAs (Decidable (lexLe a.1.toList b.1.toList = true))

/-- `repr(sorted(payload.items()))` — the canonical string the source
hashes (src/apps/services/ingestion_service.py, `_hash_payload`).  Only
the TOP-LEVEL keys are sorted; nested dicts keep insertion order. -/
def canonicalString (payload : Payload) : String :=
  pyReprItems (List.insertionSort itemLE payload)

end Powermoniter

namespace Sha256

/-- 32-bit truncation. -/
def m32 (n : Nat) : Nat := n % 4294967296

/-- 32-bit right-rotate. -/
def rotr (k x : Nat) : Nat := m32 ((x >>> k) ||| (x <<< (32 - k)))

/-- SHA-256 σ₀ (message schedule). -/
def ssig0 (x : Nat) : Nat := (rotr 7 x) ^^^ (rotr 18 x) ^^^ (x >>> 3)

/-- SHA-256 σ₁ (message schedule). -/
def ssig1 (x : Nat) : Nat := (rotr 17 x) ^^^ (rotr 19 x) ^^^ (x >>> 10)

/-- SHA-256 Σ₀ (compression). -/
def bsig0 (x : Nat) : Nat := (rotr 2 x) ^^^ (rotr 13 x) ^^^ (rotr 22 x)

/-- SHA-256 Σ₁ (compression). -/
def bsig1 (x : Nat) : Nat := (rotr 6 x) ^^^ (rotr 11 x) ^^^ (rotr 25 x)

/-- SHA-256 Ch. -/
def ch (x y z : Nat) : Nat := (x &&& y) ^^^ ((x ^^^ 4294967295) &&& z)

/-- SHA-256 Maj. -/
def maj (x y z : Nat) : Nat := (x &&& y) ^^^ (x &&& z) ^^^ (y &&& z)

/-- The 64 SHA-256 round constants. -/
def K : List Nat :=
  [1116352408, 1899447441, 3049323471, 3921009573, 961987163,
   1508970993, 2453635748, 2870763221, 3624381080, 310598401,
   607225278, 1426881987, 1925078388, 2162078206, 2614888103,
   3248222580, 3835390401, 4022224774, 264347078, 604807628,
   770255983, 1249150122, 1555081692, 1996064986, 2554220882,
   2821834349, 2952996808, 3210313671, 3336571891, 3584528711,
   113926993, 338241895, 666307205, 773529912, 1294757372,
   1396182291, 1695183700, 1986661051, 2177026350, 2456956037,
   2730485921, 2820302411, 3259730800, 3345764771, 3516065817,
   3600352804, 4094571909, 275423344, 430227734, 506948616,
   659060556, 883997877, 958139571, 1322822218, 1537002063,
   1747873779, 1955562222, 2024104815, 2227730452, 2361852424,
   2428436474, 2756734187, 3204031479, 3329325298]

/-- Initial hash value. -/
def H0 : List Nat :=
  [1779033703, 3144134277, 1013904242, 2773480762, 1359893119,
   2600822924, 528734635, 1541459225]

/-- Big-endian 64-bit byte expansion. -/
def be64 (n : Nat) : List Nat :=
  [(n >>> 56) % 256, (n >>> 48) % 256, (n >>> 40) % 256, (n >>> 32) % 256,
   (n >>> 24) % 256, (n >>> 16) % 256, (n >>> 8) % 256, n % 256]

/-- SHA-256 padding: append `0x80`, zeros to 56 mod 64, then the
big-endian 64-bit bit length. -/
def pad (msg : List Nat) : List Nat :=
  let l := msg.length
  let zeros := (120 - ((l + 1) % 64)) % 64
  msg ++ [0x80] ++ List.replicate zeros 0 ++ be64 (8 * l)

/-- Pack bytes into big-endian 32-bit words (length assumed ≡ 0 mod 4). -/
def toWords : List Nat → List Nat
  | b0 :: b1 :: b2 :: b3 :: rest =>
      (b0 <<< 24 ||| b1 <<< 16 ||| b2 <<< 8 ||| b3) :: toWords rest
  | _ => []

/-- Split a word list into 16-word blocks. -/
def toBlocks : List Nat → List (List Nat)
  | w0 :: w1 :: w2 :: w3 :: w4 :: w5 :: w6 :: w7 ::
    w8 :: w9 :: w10 :: w11 :: w12 :: w13 :: w14 :: w15 :: rest =>
      [w0, w1, w2, w3, w4, w5, w6, w7, w8, w9, w10, w11, w12, w13, w14, w15] :: toBlocks rest
  | _ => []

/-- Extend a 16-word block to the 64-entry message schedule.
`w` holds the schedule so far in reverse order. -/
def extendSchedule (w : List Nat) : Nat → List Nat
  | 0 => w.reverse
  | Nat.succ k =>
      let next := m32 (ssig1 (w.getD 1 0) + w.getD 6 0 + ssig0 (w.getD 14 0) + w.getD 15 0)
      extendSchedule (next :: w) k

/-- The 64-word message schedule of one block. -/
def schedule (block : List Nat) : List Nat :=
  extendSchedule block.reverse 48

/-- One round of the SHA-256 compression function. -/
def round (st : List Nat) (kw : Nat × Nat) : List Nat :=
  match st with
  | [a, b, c, d, e, f, g, h] =>
      let t1 := m32 (h + bsig1 e + ch e f g + kw.1 + kw.2)
      let t2 := m32 (bsig0 a + maj a b c)
      [m32 (t1 + t2), a, b, c, m32 (d + t1), e, f, g]
  | other => other

/-- Process one 16-word block: 64 rounds then feed-forward. -/
def compress (h : List Nat) (block : List Nat) : List Nat :=
  let w := schedule block
  let st := (K.zip w).foldl round h
  (h.zip st).map fun p => m32 (p.1 + p.2)

/-- SHA-256 of a byte list: the eight 32-bit words of the digest. -/
def sha256Words (msg : List Nat) : List Nat :=
  (toBlocks (toWords (pad msg))).foldl compress H0

/-- Lower-case hex digit. -/
def hexDigit (n : Nat) : Char :=
  if n < 10 then Char.ofNat (48 + n) else Char.ofNat (87 + n)

/-- Eight-digit lower-case hex rendering of a 32-bit word. -/
def wordHex (w : Nat) : List Char :=
  [hexDigit ((w >>> 28) % 16), hexDigit ((w >>> 24) % 16), hexDigit ((w >>> 20) % 16),
   hexDigit ((w >>> 16) % 16), hexDigit ((w >>> 12) % 16), hexDigit ((w >>> 8) % 16),
   hexDigit ((w >>> 4) % 16), hexDigit (w % 16)]

/-- `hashlib.sha256(bytes).hexdigest()`: 64 lower-case hex characters. -/
def sha256Hex (msg : List Nat) : String :=
  String.mk ((sha256Words msg).flatMap wordHex)

end Sha256

namespace Powermoniter

/-- UTF-8 bytes of an ASCII string (the modelled payload domain). -/
def strBytes (s : String) : List Nat := s.toList.map Char.toNat

/-- `_hash_payload` (src/apps/services/ingestion_service.py, lines 19–21):
`sha256(repr(sorted(payload.items())).encode("utf-8")).hexdigest()`. -/
def hashPayload (payload : Payload) : String :=
  Sha256.sha256Hex (strBytes (canonicalString payload))

mutual

/-- Recursive key-sorting normal form of a payload value.  Two payloads
denote the same (nested) map exactly when their normal forms agree, so
equality of normal forms is the formal rendering of "equal as maps". -/
def PyVal.normalize : PyVal → PyVal
  | PyVal.str s => PyVal.str s
  | PyVal.int n => PyVal.int n
  | PyVal.dict l => PyVal.dict (List.insertionSort itemLE (normalizeEntries l))

/-- Normalize every value of a dict entry list. -/
def normalizeEntries : List (String × PyVal) → List (String × PyVal)
  | [] => []
  | (k, v) :: r => (k, PyVal.normalize v) :: normalizeEntries r

end

/-- Modelled from the spec: the canonical representation whose key sort is
applied recursively "at every nesting level" (spec §Design notes, payload
hashing).  It differs from the source's `canonicalString` only in sorting
nested dict keys; it exists solely to compare the spec's description with
the source. -/
def specCanonicalString (payload : Payload) : String :=
  pyReprItems (List.insertionSort itemLE (normalizeEntries payload))

instance : IsTotal (String × PyVal) itemLE := ⟨fun a b => lexLe_total a.1.toList b.1.toList⟩

instance : IsTrans (String × PyVal) itemLE :=
  ⟨fun _ _ _ h1 h2 => lexLe_trans _ _ _ h1 h2⟩

/-- Keys compare equal under `lexLe` both ways only when the strings are
equal. -/
theorem key_eq_of_lexLe_antisymm {a b : String}
    (h1 : lexLe a.toList b.toList = true) (h2 : lexLe b.toList a.toList = true) : a = b := by
  have := lexLe_antisymm a.toList b.toList h1 h2
  cases a
  cases b
  simp only [String.toList] at this
  rw [this]

/-- Strict key order on dict items. -/
def itemLT (a b : String × PyVal) : Prop := itemLE a b ∧ a.1 ≠ b.1

instance : IsAntisymm (String × PyVal) itemLT :=
  ⟨fun _ _ h1 h2 => absurd (key_eq_of_lexLe_antisymm h1.1 h2.1) h1.2⟩

/-- A key-wise weakly sorted item list with pairwise-distinct keys is
strictly sorted by key. -/
theorem sorted_lt_of_sorted_le_nodup {l : List (String × PyVal)}
    (hs : List.Sorted itemLE l) (hn : (l.map Prod.fst).Nodup) :
    List.Sorted itemLT l := by
  rw [List.Nodup, List.pairwise_map] at hn
  exact (hs.and hn).imp fun h => ⟨h.1, h.2⟩

/-- Sorting by key is invariant under permutation when keys are distinct:
the sorted lists are both strictly key-sorted permutations of each other. -/
theorem insertionSort_perm_eq {p1 p2 : Payload}
    (hperm : p1.Perm p2) (hnd : (p1.map Prod.fst).Nodup) :
    List.insertionSort itemLE p1 = List.insertionSort itemLE p2 := by
  have h1 : (List.insertionSort itemLE p1).Perm p1 := List.perm_insertionSort itemLE p1
  have h2 : (List.insertionSort itemLE p2).Perm p2 := List.perm_insertionSort itemLE p2
  have hp : (List.insertionSort itemLE p1).Perm (List.insertionSort itemLE p2) :=
    (h1.trans hperm).trans h2.symm
  have hnd1 : ((List.insertionSort itemLE p1).map Prod.fst).Nodup :=
    ((h1.map Prod.fst).nodup_iff).mpr hnd
  have hnd2 : ((List.insertionSort itemLE p2).map Prod.fst).Nodup :=
    ((hp.map Prod.fst).nodup_iff).mp hnd1
  exact List.eq_of_perm_of_sorted hp
    (sorted_lt_of_sorted_le_nodup (List.sorted_insertionSort itemLE p1) hnd1)
    (sorted_lt_of_sorted_le_nodup (List.sorted_insertionSort itemLE p2) hnd2)

/-! ## Reading store (src/apps/services/ingestion_service.py) -/

/-- One persisted `Reading` row (src/apps/repositories/models.py): the
columns `record_reading` writes.  `ts` is UTC epoch seconds; decimals are
rationals. -/
structure Reading where
  mac : String
  ts : Int
  energy_kwh : ℚ
  power : Option ℚ
  voltage : Option ℚ
  current : Option ℚ
  key : Option PyVal
  payload : Payload
  payload_hash : String
deriving DecidableEq

/-- Observable state of the reading store together with the two counters
`record_reading` touches (`record_duplicate` / `record_commit` on the
subscriber registry). -/
structure IngestState where
  readings : List Reading
  duplicates : Nat
  commits : Nat
deriving DecidableEq

/-- `record_reading` (src/apps/services/ingestion_service.py, lines
24–66): hash the payload; if a row with the same `(mac, ts,
payload_hash)` exists, bump the duplicate counter and return, else insert
the new row and bump the commit counter. -/
def recordReading (st : IngestState) (mac : String) (ts : Int) (energy_kwh : ℚ)
    (power voltage current : Option ℚ) (key : Option PyVal) (payload : Payload) :
    IngestState :=
  let payload_hash := hashPayload payload
  if st.readings.any fun r => r.mac == mac && r.ts == ts && r.payload_hash == payload_hash then
    { st with duplicates := st.duplicates + 1 }
  else
    { st with
      readings := st.readings ++
        [⟨mac, ts, energy_kwh, power, voltage, current, key, payload, payload_hash⟩],
      commits := st.commits + 1 }

/-- The boolean duplicate test of `record_reading` matches the triple
predicate. -/
theorem recordReading_exists_iff (st : IngestState) (mac : String) (ts : Int) (h : String) :
    (st.readings.any fun r => r.mac == mac && r.ts == ts && r.payload_hash == h) = true ↔
      ∃ r ∈ st.readings, r.mac = mac ∧ r.ts = ts ∧ r.payload_hash = h := by
  simp [List.any_eq_true, and_assoc]

/-! ## Retry policy (src/apps/subscribers/retry.py) -/

/-- The two failure modes of `RetryPolicy.next_delay`: `ValueError` for
`attempt < 1`, `RuntimeError` when the attempt count is exhausted. -/
inductive RetryError : Type where
  | valueError : RetryError
  | maxAttemptsExceeded : RetryError
deriving DecidableEq

/-- `RetryPolicy` (src/apps/subscribers/retry.py, lines 9–15) with its
default field values.  The float delays are modelled as rationals. -/
structure RetryPolicy where
  base_delay : ℚ := 1
  max_delay : ℚ := 60
  max_attempts : Nat := 12
deriving DecidableEq

/-- `RetryPolicy.next_delay` (src/apps/subscribers/retry.py, lines
17–26): reject `attempt < 1`, raise after `max_attempts`, otherwise
return `min(base_delay * 2^(attempt-1), max_delay)`. -/
def RetryPolicy.next_delay (p : RetryPolicy) (attempt : Int) : Except RetryError ℚ :=
  if attempt < 1 then Except.error RetryError.valueError
  else if attempt > p.max_attempts then Except.error RetryError.maxAttemptsExceeded
  else Except.ok (min (p.base_delay * 2 ^ (attempt - 1).toNat) p.max_delay)

/-- `RetryPolicy.wait_with_retry` (src/apps/subscribers/retry.py, lines
28–32): the number of seconds slept is exactly `next_delay attempt`
(modelled as the returned duration). -/
def RetryPolicy.wait_with_retry (p : RetryPolicy) (attempt : Int) : Except RetryError ℚ :=
  p.next_delay attempt

/-! ## Shared MQTT connection (src/apps/adapters/mqtt_adapter.py) -/

/-- Envelope `SimpleNamespace(mac=..., payload=...)` built by
`_handle_message` (src/apps/adapters/mqtt_adapter.py, line 152). -/
structure Envelope where
  mac : String
  payload : Payload
deriving DecidableEq

/-- `TopicSubscription` (src/apps/adapters/mqtt_adapter.py, lines 48–51):
the MAC a topic is bound to and its queue.  The `asyncio.Queue` object is
identified by an allocation id, and its contents are the enqueued
envelopes. -/
structure TopicSub where
  mac : String
  queueId : Nat
  queue : List Envelope
deriving DecidableEq

/-- Per-connection routing state of `SharedMQTTConnection`: the
`topics` table, a counter producing fresh queue identities, plus the
observable effects of `_handle_message` (dead-letter reasons appended by
`record_dead_letter`, MACs appended by `record_ingress`). -/
structure ConnState where
  topics : List (String × TopicSub)
  nextQueueId : Nat
  deadLetters : List String
  ingress : List String
deriving DecidableEq

/-- `self._topics.get(topic)`: lookup in the routing table. -/
def findTopic (topics : List (String × TopicSub)) (topic : String) : Option TopicSub :=
  match topics with
  | [] => none
  | (t, sub) :: rest => if t = topic then some sub else findTopic rest topic

/-- `SharedMQTTConnection.subscribe` (src/apps/adapters/mqtt_adapter.py,
lines 236–248), restricted to the routing-table transition it performs
under the topics lock: an existing entry with a different MAC is a
binding conflict; an existing entry with the same MAC returns its queue
unchanged; otherwise a fresh queue is installed.  Returns the queue id
handed back to the caller. -/
def subscribe (s : ConnState) (topic mac : String) : Except String (Nat × ConnState) :=
  match findTopic s.topics topic with
  | some existing =>
      if existing.mac ≠ mac then Except.error ("topic already bound: " ++ topic)
      else Except.ok (existing.queueId, s)
  | none =>
      Except.ok (s.nextQueueId,
        { s with
          topics := s.topics ++ [(topic, ⟨mac, s.nextQueueId, []⟩)],
          nextQueueId := s.nextQueueId + 1 })

/-- Replace the subscription stored for `topic` (used to model
`subscription.queue.put_nowait`). -/
def setTopic (topics : List (String × TopicSub)) (topic : String) (sub : TopicSub) :
    List (String × TopicSub) :=
  match topics with
  | [] => []
  | (t, old) :: rest =>
      if t = topic then (t, sub) :: rest else (t, old) :: setTopic rest topic sub

/-- Python `str.upper()` for the ASCII domain the system exchanges. -/
def strUpper (s : String) : String := String.mk (s.toList.map Char.toUpper)

/-- Python `str(x)` for a payload value (ASCII domain): strings render
bare, ints in decimal, dicts as their repr. -/
def pyStr : PyVal → String
  | PyVal.str s => s
  | PyVal.int n => toString n
  | PyVal.dict l => "\x7b" ++ pyReprEntries l ++ "\x7d"

/-- `SharedMQTTConnection._handle_message` (src/apps/adapters/
mqtt_adapter.py, lines 135–154): route a decoded JSON object delivered
for `topic`.  Unknown topic → dead-letter `unknown_topic`; normalized
payload MAC differing from the subscription's MAC → dead-letter
`mac_mismatch`; otherwise enqueue the envelope and record ingress. -/
def handleMessage (s : ConnState) (topic : String) (payload : Payload) : ConnState :=
  match findTopic s.topics topic with
  | none => { s with deadLetters := s.deadLetters ++ ["unknown_topic"] }
  | some subscription =>
      let payloadMacNorm : Option String :=
        (pyGet payload "mac").map fun v => strUpper (pyStr v)
      let expectedMacNorm := strUpper subscription.mac
      if payloadMacNorm ≠ some expectedMacNorm then
        { s with deadLetters := s.deadLetters ++ ["mac_mismatch"] }
      else
        { s with
          topics := setTopic s.topics topic
            { subscription with
              queue := subscription.queue ++ [⟨subscription.mac, payload⟩] },
          ingress := s.ingress ++ [subscription.mac] }

/-! ## Authentication (src/apps/services/auth_service.py) -/

/-- Outcome of `AuthService.login`: normal return, or one of the two
raised errors (`InvalidCredentialsError` maps to the UNAUTHORIZED
response, `AccountLockedError` to ACCOUNT_LOCKED). -/
inductive LoginOutcome : Type where
  | success : LoginOutcome
  | invalidCredentials : LoginOutcome
  | accountLocked : LoginOutcome
deriving DecidableEq

/-- The `User` columns `AuthService.login` reads and writes. -/
structure AuthUser where
  password_hash : String
  pw_fail_count : Nat
  last_login_at : Option Int
deriving DecidableEq

/-- `LOCK_THRESHOLD` (src/apps/services/auth_service.py, line 15). -/
def LOCK_THRESHOLD : Nat := 3

/-- `LOCK_WINDOW = timedelta(minutes=15)` in seconds. -/
def LOCK_WINDOW : Int := 900

/-- The inner lock test `last_login and now - last_login < LOCK_WINDOW`. -/
def lockActive (lastLogin : Option Int) (now : Int) : Bool :=
  match lastLogin with
  | some t => now - t < LOCK_WINDOW
  | none => false

/-- `AuthService.login` (src/apps/services/auth_service.py, lines 42–81)
for an existing user, parametrized by the password verifier
`check_password` from the web framework.  Returns the outcome and the
persisted user row: a locked-out attempt raises before any save; a
cooldown-expired attempt first zeroes the counter; every non-locked
attempt stamps `last_login_at := now`; wrong passwords increment the
counter and lock once it reaches the threshold; a correct password
resets the counter to 0. -/
def login (check_password : String → String → Bool) (u : AuthUser) (now : Int)
    (password : String) : LoginOutcome × AuthUser :=
  if LOCK_THRESHOLD ≤ u.pw_fail_count ∧ lockActive u.last_login_at now then
    (LoginOutcome.accountLocked, u)
  else
    let u1 := if LOCK_THRESHOLD ≤ u.pw_fail_count then { u with pw_fail_count := 0 } else u
    let u2 := { u1 with last_login_at := some now }
    if check_password password u.password_hash then
      (LoginOutcome.success, { u2 with pw_fail_count := 0 })
    else
      let u3 := { u2 with pw_fail_count := u2.pw_fail_count + 1 }
      if LOCK_THRESHOLD ≤ u3.pw_fail_count then (LoginOutcome.accountLocked, u3)
      else (LoginOutcome.invalidCredentials, u3)

/-! ## Envelope timestamp normalization
(src/apps/services/subscription_manager.py, `_parse_timestamp`) -/

/-- Result of `datetime.fromisoformat`: the wall-clock instant the string
spells, as seconds, and the UTC offset of its timezone (none for a naive
datetime). -/
structure PyDatetime where
  naiveSeconds : Int
  tzOffset : Option Int
deriving DecidableEq

/-- Python truthiness of a payload value: empty string, zero and empty
dict are falsy. -/
def pyTruthy : PyVal → Bool
  | PyVal.str s => s ≠ ""
  | PyVal.int n => n ≠ 0
  | PyVal.dict l => l ≠ []

/-- `payload.get("ts") or payload.get("timestamp")`: the `ts` value when
present and truthy, else the `timestamp` value (which may be absent). -/
def tsRaw (payload : Payload) : Option PyVal :=
  match pyGet payload "ts" with
  | some v => if pyTruthy v then some v else pyGet payload "timestamp"
  | none => pyGet payload "timestamp"

/-- `SubscriptionManager._parse_timestamp` (src/apps/services/
subscription_manager.py, lines 222–236), parametrized by the library
parser `datetime.fromisoformat` (`none` models `ValueError`).  A missing
or falsy raw value yields `now`; a number is an epoch timestamp; a
string is parsed as ISO-8601, treating a naive result as UTC, with parse
failure yielding `now`; any other type yields `now`. -/
def parseTimestamp (fromisoformat : String → Option PyDatetime) (now : Int)
    (payload : Payload) : Int :=
  match tsRaw payload with
  | none => now
  | some (PyVal.int n) => n
  | some (PyVal.str s) =>
      match fromisoformat s with
      | none => now
      | some dt => dt.naiveSeconds - dt.tzOffset.getD 0
  | some (PyVal.dict _) => now

/-! ## Bucketed query engine (src/apps/services/device_api_service.py) -/

/-- One row of `_get_readings_by_device_id`'s `.values("ts",
"energy_kwh", "power", "voltage", "current")`. -/
structure ReadingRow where
  ts : Int
  energy_kwh : ℚ
  power : Option ℚ
  voltage : Option ℚ
  current : Option ℚ
deriving DecidableEq

/-- The per-bucket accumulator dict initialized in `_build_buckets`
Step 2 (src/apps/services/device_api_service.py, lines 264–283). -/
structure BucketStats where
  count : Nat
  power : ℚ
  voltage : ℚ
  current : ℚ
  energy : ℚ
  lastPower : Option ℚ
  lastVoltage : Option ℚ
  lastCurrent : Option ℚ
  firstEnergy : Option ℚ
  lastEnergy : Option ℚ
deriving DecidableEq

/-- Freshly initialized accumulators. -/
def emptyStats : BucketStats := ⟨0, 0, 0, 0, 0, none, none, none, none, none⟩

/-- `_build_buckets` Step 3 loop body (src/apps/services/
device_api_service.py, lines 292–300): count, last power/voltage/current
(with `x or 0` collapsing missing values to zero), first/last energy. -/
def updateStats (stats : BucketStats) (r : ReadingRow) : BucketStats :=
  let energyValue := r.energy_kwh
  { stats with
    count := stats.count + 1
    lastPower := some (r.power.getD 0)
    lastVoltage := some (r.voltage.getD 0)
    lastCurrent := some (r.current.getD 0)
    firstEnergy := match stats.firstEnergy with
      | none => some energyValue
      | some e => some e
    lastEnergy := some energyValue }

/-- Replace the `i`-th element of a list in place. -/
def modifyAt {α : Type} (l : List α) (i : Nat) (f : α → α) : List α :=
  match l, i with
  | [], _ => []
  | x :: rest, 0 => f x :: rest
  | x :: rest, Nat.succ k => x :: modifyAt rest k f

/-- `_build_buckets` Step 2: pre-generated buckets `(start + i·bucket,
fresh accumulators)` for `i < bucket_count`. -/
def initBuckets (start bucketSeconds : Int) (bucketCount : Nat) : List (Int × BucketStats) :=
  (List.range bucketCount).map fun i : Nat => (start + (i : Int) * bucketSeconds, emptyStats)

/-- `_build_buckets` Step 3 per-reading step: locate the bucket by floor
division of the time delta and update its accumulators; indexes outside
`[0, len(buckets))` are skipped. -/
def applyReading (start bucketSeconds : Int) (buckets : List (Int × BucketStats))
    (r : ReadingRow) : List (Int × BucketStats) :=
  if Int.fdiv (r.ts - start) bucketSeconds < 0 ∨
      (buckets.length : Int) ≤ Int.fdiv (r.ts - start) bucketSeconds then buckets
  else modifyAt buckets (Int.fdiv (r.ts - start) bucketSeconds).toNat fun p =>
    (p.1, updateStats p.2 r)

/-- `_build_buckets` Step 4 (src/apps/services/device_api_service.py,
lines 303–317): emit last instantaneous values and the non-negative
energy delta for non-empty buckets, zeros otherwise. -/
def finalizeStats (stats : BucketStats) : BucketStats :=
  if stats.count ≠ 0 then
    { stats with
      power := stats.lastPower.getD 0
      voltage := stats.lastVoltage.getD 0
      current := stats.lastCurrent.getD 0
      energy := match stats.firstEnergy, stats.lastEnergy with
        | some fe, some le => if 0 ≤ le - fe then le - fe else 0
        | _, _ => 0 }
  else { stats with power := 0, voltage := 0, current := 0, energy := 0 }

/-- `DeviceApiService._build_buckets` (src/apps/services/
device_api_service.py, lines 252–318). -/
def buildBuckets (start bucketSeconds : Int) (bucketCount : Nat)
    (readings : List ReadingRow) : List (Int × BucketStats) :=
  let filled := readings.foldl (applyReading start bucketSeconds)
    (initBuckets start bucketSeconds bucketCount)
  filled.map fun p => (p.1, finalizeStats p.2)

/-- The `ts__gte=start_utc, ts__lte=end_utc` filter of
`_get_readings_by_device_id` (src/apps/services/device_api_service.py,
lines 176–189): both window ends inclusive. -/
def readingsInWindow (rows : List ReadingRow) (startUtc endUtc : Int) : List ReadingRow :=
  rows.filter fun r => startUtc ≤ r.ts ∧ r.ts ≤ endUtc

/-- The three fixed windows of `DeviceWindow`. -/
inductive DeviceWindow : Type where
  | last24h : DeviceWindow
  | last7d : DeviceWindow
  | last30d : DeviceWindow
deriving DecidableEq

/-- `WindowConfig` (src/apps/services/device_api_service.py, lines
36–40), durations in seconds. -/
structure WindowConfig where
  duration : Int
  bucket : Int
  interval_label : String
deriving DecidableEq

/-- `DeviceApiService._WINDOW_CONFIG` (src/apps/services/
device_api_service.py, lines 60–64). -/
def WINDOW_CONFIG : DeviceWindow → WindowConfig
  | DeviceWindow.last24h => ⟨86400, 300, "pt5m"⟩
  | DeviceWindow.last7d => ⟨604800, 1800, "pt30m"⟩
  | DeviceWindow.last30d => ⟨2592000, 7200, "pt120m"⟩

/-- One `ElectricityPoint` of the response (timestamps kept as epoch
seconds). -/
structure ElectricityPoint where
  timestamp : Int
  power_kw : ℚ
  energy_kwh : ℚ
  voltage_v : ℚ
  current_a : ℚ
deriving DecidableEq

/-- The `ElectricitySeries` response body. -/
structure ElectricitySeries where
  start_time : Int
  end_time : Int
  interval : String
  points : List ElectricityPoint
deriving DecidableEq

/-- `DeviceApiService.get_device_electricity` (src/apps/services/
device_api_service.py, lines 119–174), in-memory aggregation path, for
an authorized device: derive the window, fetch the device's readings in
`[start, end]` ordered by `ts`, build buckets, and emit the points of
buckets with `count > 0`. -/
def getDeviceElectricity (window : DeviceWindow) (now : Int) (rows : List ReadingRow) :
    ElectricitySeries :=
  let config := WINDOW_CONFIG window
  let endUtc := now
  let startUtc := endUtc - config.duration
  let bucketSeconds := config.bucket
  let bucketCount := (config.duration / bucketSeconds).toNat
  let readings := List.insertionSort (fun a b => a.ts ≤ b.ts)
    (readingsInWindow rows startUtc endUtc)
  let buckets := buildBuckets startUtc bucketSeconds bucketCount readings
  { start_time := startUtc
    end_time := endUtc
    interval := config.interval_label
    points := (buckets.filter fun p => 0 < p.2.count).map fun p =>
      ⟨p.1, p.2.power, p.2.energy, p.2.voltage, p.2.current⟩ }

/-! ### Characterization of the bucket fold -/

theorem modifyAt_length {α : Type} (l : List α) (i : Nat) (f : α → α) :
    (modifyAt l i f).length = l.length := by
  induction l generalizing i with
  | nil => rfl
  | cons x rest ih =>
      cases i with
      | zero => rfl
      | succ k => simp [modifyAt, ih]

theorem getElem?_modifyAt {α : Type} (l : List α) (i : Nat) (f : α → α) (j : Nat) :
    (modifyAt l i f)[j]? = if j = i then l[j]?.map f else l[j]? := by
  induction l generalizing i j with
  | nil => simp [modifyAt]
  | cons x rest ih =>
      cases i with
      | zero =>
          cases j with
          | zero => simp [modifyAt]
          | succ jk => simp [modifyAt]
      | succ k =>
          cases j with
          | zero => simp [modifyAt]
          | succ jk => simpa [modifyAt] using ih k jk

theorem getElem?_applyReading (start w : Int) (bs : List (Int × BucketStats))
    (r : ReadingRow) (i : Nat) :
    (applyReading start w bs r)[i]? =
      if Int.fdiv (r.ts - start) w = (i : Int)
      then bs[i]?.map fun p => (p.1, updateStats p.2 r)
      else bs[i]? := by
  unfold applyReading
  split
  · rename_i hout
    by_cases hcase : Int.fdiv (r.ts - start) w = (i : Int)
    · rw [if_pos hcase]
      have hlen : bs.length ≤ i := by
        rw [hcase] at hout
        omega
      simp [List.getElem?_eq_none hlen]
    · rw [if_neg hcase]
  · rename_i hin
    rw [not_or] at hin
    obtain ⟨h0, hlen⟩ := hin
    rw [getElem?_modifyAt]
    by_cases hcase : Int.fdiv (r.ts - start) w = (i : Int)
    · have : i = (Int.fdiv (r.ts - start) w).toNat := by omega
      simp [hcase, ← this]
    · have : i ≠ (Int.fdiv (r.ts - start) w).toNat := by omega
      simp [hcase, this]

theorem getElem?_foldl_applyReading (start w : Int) (rs : List ReadingRow)
    (bs : List (Int × BucketStats)) (i : Nat) :
    (rs.foldl (applyReading start w) bs)[i]? =
      bs[i]?.map fun p =>
        (p.1, (rs.filter fun r => Int.fdiv (r.ts - start) w = (i : Int)).foldl
          updateStats p.2) := by
  induction rs generalizing bs with
  | nil =>
      simp only [List.foldl_nil, List.filter_nil]
      cases bs[i]? with
      | none => rfl
      | some p => rfl
  | cons r rest ih =>
      rw [List.foldl_cons, ih (applyReading start w bs r), getElem?_applyReading]
      by_cases hcase : Int.fdiv (r.ts - start) w = (i : Int)
      · rw [if_pos hcase, List.filter_cons_of_pos (by simpa using hcase)]
        cases bs[i]? with
        | none => rfl
        | some p => rfl
      · rw [if_neg hcase, List.filter_cons_of_neg (by simpa using hcase)]

/-- The bucket list is, pointwise, the finalized fold of exactly the
readings whose floor-division index selects that bucket. -/
theorem buildBuckets_eq (start w : Int) (count : Nat) (rs : List ReadingRow) :
    buildBuckets start w count rs =
      (List.range count).map fun i : Nat =>
        (start + (i : Int) * w,
         finalizeStats
           ((rs.filter fun r => Int.fdiv (r.ts - start) w = (i : Int)).foldl
             updateStats emptyStats)) := by
  apply List.ext_getElem?
  intro i
  simp only [buildBuckets, initBuckets, List.getElem?_map, getElem?_foldl_applyReading,
    Option.map_map]
  by_cases hic : i < count
  · rw [List.getElem?_range hic]
    rfl
  · have h1 : (List.range count)[i]? = none := by
      apply List.getElem?_eq_none
      simpa using Nat.le_of_not_lt hic
    rw [h1]
    rfl

theorem buildBuckets_length (start w : Int) (count : Nat) (rs : List ReadingRow) :
    (buildBuckets start w count rs).length = count := by
  rw [buildBuckets_eq]
  simp

theorem foldl_updateStats_count (rs : List ReadingRow) (st : BucketStats) :
    (rs.foldl updateStats st).count = st.count + rs.length := by
  induction rs generalizing st with
  | nil => simp
  | cons r rest ih =>
      rw [List.foldl_cons, ih]
      simp only [updateStats, List.length_cons]
      omega

theorem foldl_updateStats_firstEnergy (rs : List ReadingRow) (st : BucketStats) :
    (rs.foldl updateStats st).firstEnergy =
      match st.firstEnergy with
      | some e => some e
      | none => rs.head?.map fun r => r.energy_kwh := by
  induction rs generalizing st with
  | nil => cases hst : st.firstEnergy <;> simp [hst]
  | cons r rest ih =>
      rw [List.foldl_cons, ih]
      cases hst : st.firstEnergy <;> simp [updateStats, hst]

theorem foldl_updateStats_lastEnergy (rs : List ReadingRow) (st : BucketStats) :
    (rs.foldl updateStats st).lastEnergy =
      match rs.getLast? with
      | some r => some r.energy_kwh
      | none => st.lastEnergy := by
  induction rs generalizing st with
  | nil => simp
  | cons r rest ih =>
      cases rest with
      | nil => simp [updateStats]
      | cons r2 rest2 =>
          rw [List.foldl_cons, ih, List.getLast?_cons_cons]
          cases hgl : (r2 :: rest2).getLast? with
          | none =>
              exact absurd (List.getLast?_eq_none_iff.mp hgl) (List.cons_ne_nil r2 rest2)
          | some x => rfl

theorem finalizeStats_count (st : BucketStats) : (finalizeStats st).count = st.count := by
  unfold finalizeStats
  split <;> rfl

theorem finalizeStats_energy_nonneg (st : BucketStats) : 0 ≤ (finalizeStats st).energy := by
  obtain ⟨c, p, v, cu, e, lp, lv2, lc, fe, le2⟩ := st
  unfold finalizeStats
  by_cases h : c ≠ 0
  · rw [if_pos h]
    cases fe with
    | none => simp
    | some fev =>
        cases le2 with
        | none => simp
        | some lev =>
            simp only
            split
            · assumption
            · exact le_refl 0
  · rw [if_neg h]

theorem sorted_head_ts_min {l : List ReadingRow}
    (hs : List.Pairwise (fun a b : ReadingRow => a.ts ≤ b.ts) l) (hne : l ≠ []) :
    ∀ r ∈ l, (l.head hne).ts ≤ r.ts := by
  cases l with
  | nil => exact absurd rfl hne
  | cons a rest =>
      intro r hr
      rcases List.mem_cons.mp hr with h | h
      · rw [h]
        exact le_refl _
      · exact (List.pairwise_cons.mp hs).1 r h

theorem sorted_getLast_ts_max {l : List ReadingRow}
    (hs : List.Pairwise (fun a b : ReadingRow => a.ts ≤ b.ts) l) (hne : l ≠ []) :
    ∀ r ∈ l, r.ts ≤ (l.getLast hne).ts := by
  induction l with
  | nil => exact absurd rfl hne
  | cons a rest ih =>
      intro r hr
      cases rest with
      | nil =>
          rcases List.mem_cons.mp hr with h | h
          · rw [h]
            exact le_refl _
          · exact absurd h (List.not_mem_nil r)
      | cons b rest2 =>
          have hne2 : b :: rest2 ≠ [] := List.cons_ne_nil b rest2
          rw [List.getLast_cons hne2]
          rcases List.mem_cons.mp hr with h | h
          · rw [h]
            exact (List.pairwise_cons.mp hs).1 _ (List.getLast_mem hne2)
          · exact ih (List.pairwise_cons.mp hs).2 hne2 r h

/-- Floor division locates a value inside a half-open interval. -/
theorem fdiv_eq_of_range {a w : Int} (hw : 0 < w) (k : Int)
    (h1 : k * w ≤ a) (h2 : a < (k + 1) * w) : Int.fdiv a w = k := by
  rw [Int.fdiv_eq_ediv _ (le_of_lt hw)]
  have ha : a = (a - k * w) + k * w := by ring
  rw [ha, Int.add_mul_ediv_right _ _ (ne_of_gt hw),
    Int.ediv_eq_zero_of_lt (by linarith) (by linarith), zero_add]

/-- Appending a fresh binding to a routing table without one makes it
findable. -/
theorem findTopic_append_of_none {l : List (String × TopicSub)} {t : String}
    (h : findTopic l t = none) (sub : TopicSub) :
    findTopic (l ++ [(t, sub)]) t = some sub := by
  induction l with
  | nil => simp [findTopic]
  | cons x rest ih =>
      obtain ⟨tx, sx⟩ := x
      by_cases hx : tx = t
      · rw [findTopic, if_pos hx] at h
        cases h
      · rw [findTopic, if_neg hx] at h
        rw [List.cons_append, findTopic, if_neg hx]
        exact ih h

/-! ## Claim theorems -/

/-- C7: for the retry policy with base_delay 1s, max_delay 60s,
max_attempts 12, `delay(n) = min(max_delay, base_delay · 2^(n−1))` for
every attempt `1 ≤ n ≤ 12`; every `n > 12` raises the max-attempts
failure; and `wait(n)` sleeps for exactly `delay(n)`. -/
theorem c7_retry_policy (n : Int) :
    (1 ≤ n ∧ n ≤ 12 →
      RetryPolicy.next_delay {} n = Except.ok (min (60 : ℚ) (1 * 2 ^ (n - 1).toNat))) ∧
    (12 < n → RetryPolicy.next_delay {} n = Except.error RetryError.maxAttemptsExceeded) ∧
    RetryPolicy.wait_with_retry {} n = RetryPolicy.next_delay {} n := by
  have hb : ({} : RetryPolicy).base_delay = 1 := rfl
  have hm : ({} : RetryPolicy).max_delay = 60 := rfl
  have ha : ({} : RetryPolicy).max_attempts = 12 := rfl
  refine ⟨?_, ?_, rfl⟩
  · rintro ⟨h1, h2⟩
    unfold RetryPolicy.next_delay
    rw [hb, hm, ha]
    rw [if_neg (by omega), if_neg (by omega), min_comm]
  · intro h
    unfold RetryPolicy.next_delay
    rw [ha]
    rw [if_neg (by omega), if_pos (by omega)]

/-- C7 witness: at attempt 7 the policy returns the capped delay
`min 60 64 = 60`, and attempt 13 raises. -/
theorem c7_retry_policy_witness :
    RetryPolicy.next_delay {} 7 = Except.ok 60 ∧
    RetryPolicy.next_delay {} 13 = Except.error RetryError.maxAttemptsExceeded ∧
    RetryPolicy.wait_with_retry {} 7 = RetryPolicy.next_delay {} 7 := by
  refine ⟨?_, (c7_retry_policy 13).2.1 (by omega), (c7_retry_policy 7).2.2⟩
  rw [(c7_retry_policy 7).1 ⟨by omega, by omega⟩]
  have h6 : ((7 : Int) - 1).toNat = 6 := rfl
  rw [h6]
  norm_num

/-- `subscribe` on a topic with an existing binding. -/
theorem subscribe_found {s : ConnState} {t : String} {ex : TopicSub}
    (hft : findTopic s.topics t = some ex) (m : String) :
    subscribe s t m =
      if ex.mac ≠ m then Except.error ("topic already bound: " ++ t)
      else Except.ok (ex.queueId, s) := by
  unfold subscribe
  rw [hft]

/-- `subscribe` on an unbound topic installs a fresh queue. -/
theorem subscribe_none {s : ConnState} {t : String}
    (hft : findTopic s.topics t = none) (m : String) :
    subscribe s t m = Except.ok (s.nextQueueId,
      { s with
        topics := s.topics ++ [(t, ⟨m, s.nextQueueId, []⟩)],
        nextQueueId := s.nextQueueId + 1 }) := by
  unfold subscribe
  rw [hft]

/-- C6: after `subscribe(t, m)` returned queue `q` in state `s2`, a
second `subscribe(t, m)` returns the same queue `q` and leaves the state
(hence the routing table) unchanged, while `subscribe(t, m2)` for
`m2 ≠ m` fails with the binding-conflict error. -/
theorem c6_subscribe_idempotent_conflict (s : ConnState) (t m m2 : String)
    (hne : m2 ≠ m) (q : Nat) (s2 : ConnState)
    (h : subscribe s t m = Except.ok (q, s2)) :
    subscribe s2 t m = Except.ok (q, s2) ∧
    subscribe s2 t m2 = Except.error ("topic already bound: " ++ t) := by
  have hfind : ∃ sub : TopicSub, findTopic s2.topics t = some sub ∧
      sub.mac = m ∧ sub.queueId = q := by
    cases hft : findTopic s.topics t with
    | some ex =>
        rw [subscribe_found hft m] at h
        by_cases hmac : ex.mac ≠ m
        · rw [if_pos hmac] at h
          cases h
        · rw [if_neg hmac] at h
          rw [not_not] at hmac
          simp only [Except.ok.injEq, Prod.mk.injEq] at h
          exact ⟨ex, by rw [← h.2]; exact hft, hmac, h.1⟩
    | none =>
        rw [subscribe_none hft m] at h
        simp only [Except.ok.injEq, Prod.mk.injEq] at h
        refine ⟨⟨m, s.nextQueueId, []⟩, ?_, rfl, h.1⟩
        rw [← h.2]
        exact findTopic_append_of_none hft _
  obtain ⟨sub, hft2, hmac, hq⟩ := hfind
  constructor
  · rw [subscribe_found hft2 m, if_neg (by rw [hmac]; exact not_not_intro rfl), hq]
  · rw [subscribe_found hft2 m2, if_pos (by rw [hmac]; exact fun hc => hne hc.symm)]

/-- C6 witness: from the empty connection state, subscribing topic "t"
for MAC "M" yields queue 0; re-subscribing returns the same queue and
state, and subscribing a different MAC fails. -/
theorem c6_subscribe_witness :
    subscribe ⟨[(("t" : String), ⟨"M", 0, []⟩)], 1, [], []⟩ "t" "M" =
      Except.ok (0, (⟨[(("t" : String), ⟨"M", 0, []⟩)], 1, [], []⟩ : ConnState)) ∧
    subscribe ⟨[(("t" : String), ⟨"M", 0, []⟩)], 1, [], []⟩ "t" "N" =
      Except.error ("topic already bound: " ++ "t") := by
  exact c6_subscribe_idempotent_conflict ⟨[], 0, [], []⟩
    "t" "M" "N" (by decide) 0 ⟨[(("t" : String), ⟨"M", 0, []⟩)], 1, [], []⟩ (by rfl)

/-- C1: `record_reading` with an existing `(mac, ts, payload_hash)` row
leaves the stored readings unchanged, bumps only the duplicate counter
and returns; without one it appends exactly the new row and bumps only
the commit counter; hence re-ingesting the same payload twice leaves the
readings equal to those after one ingestion and bumps the duplicate
counter by one. -/
theorem c1_record_reading_idempotent (st : IngestState) (mac : String) (ts : Int)
    (e : ℚ) (pw vo cu : Option ℚ) (key : Option PyVal) (payload : Payload) :
    ((∃ r ∈ st.readings, r.mac = mac ∧ r.ts = ts ∧ r.payload_hash = hashPayload payload) →
      (recordReading st mac ts e pw vo cu key payload).readings = st.readings ∧
      (recordReading st mac ts e pw vo cu key payload).duplicates = st.duplicates + 1 ∧
      (recordReading st mac ts e pw vo cu key payload).commits = st.commits) ∧
    ((¬ ∃ r ∈ st.readings, r.mac = mac ∧ r.ts = ts ∧ r.payload_hash = hashPayload payload) →
      (recordReading st mac ts e pw vo cu key payload).readings =
        st.readings ++ [⟨mac, ts, e, pw, vo, cu, key, payload, hashPayload payload⟩] ∧
      (recordReading st mac ts e pw vo cu key payload).commits = st.commits + 1 ∧
      (recordReading st mac ts e pw vo cu key payload).duplicates = st.duplicates) ∧
    ((recordReading (recordReading st mac ts e pw vo cu key payload)
        mac ts e pw vo cu key payload).readings =
      (recordReading st mac ts e pw vo cu key payload).readings ∧
     (recordReading (recordReading st mac ts e pw vo cu key payload)
        mac ts e pw vo cu key payload).duplicates =
      (recordReading st mac ts e pw vo cu key payload).duplicates + 1) := by
  by_cases hdup : (st.readings.any fun r =>
      r.mac == mac && r.ts == ts && r.payload_hash == hashPayload payload) = true
  · have hst1 : recordReading st mac ts e pw vo cu key payload =
        { st with duplicates := st.duplicates + 1 } := by
      unfold recordReading
      rw [if_pos hdup]
    have hdup2 : (({ st with duplicates := st.duplicates + 1 } : IngestState).readings.any
        fun r => r.mac == mac && r.ts == ts && r.payload_hash == hashPayload payload) =
          true := hdup
    have hst2 : recordReading { st with duplicates := st.duplicates + 1 }
        mac ts e pw vo cu key payload =
        { st with duplicates := st.duplicates + 1 + 1 } := by
      unfold recordReading
      rw [if_pos hdup2]
    refine ⟨fun _ => by rw [hst1]; exact ⟨rfl, rfl, rfl⟩, ?_, ?_⟩
    · intro hnex
      exact absurd ((recordReading_exists_iff st mac ts (hashPayload payload)).mp hdup) hnex
    · rw [hst1, hst2]
      exact ⟨rfl, rfl⟩
  · have hst1 : recordReading st mac ts e pw vo cu key payload =
        { st with
          readings := st.readings ++
            [⟨mac, ts, e, pw, vo, cu, key, payload, hashPayload payload⟩],
          commits := st.commits + 1 } := by
      unfold recordReading
      rw [if_neg hdup]
    have hdup2 : ((st.readings ++
        [⟨mac, ts, e, pw, vo, cu, key, payload, hashPayload payload⟩] : List Reading).any
          fun r => r.mac == mac && r.ts == ts && r.payload_hash == hashPayload payload) =
            true := by
      rw [List.any_append]
      simp
    have hst2 : recordReading
        { st with
          readings := st.readings ++
            [⟨mac, ts, e, pw, vo, cu, key, payload, hashPayload payload⟩],
          commits := st.commits + 1 }
        mac ts e pw vo cu key payload =
        { st with
          readings := st.readings ++
            [⟨mac, ts, e, pw, vo, cu, key, payload, hashPayload payload⟩],
          commits := st.commits + 1,
          duplicates := st.duplicates + 1 } := by
      unfold recordReading
      rw [if_pos hdup2]
    refine ⟨?_, fun _ => by rw [hst1]; exact ⟨rfl, rfl, rfl⟩, ?_⟩
    · intro hex
      exact absurd ((recordReading_exists_iff st mac ts (hashPayload payload)).mpr hex) hdup
    · rw [hst1, hst2]
      exact ⟨rfl, rfl⟩

/-- C1 witness: ingesting an empty-store payload twice keeps a single
row and bumps the duplicate counter once. -/
theorem c1_record_reading_witness :
    (recordReading (recordReading ⟨[], 0, 0⟩ "AA0000000001" 100 1 none none none none
        [("mac", PyVal.str "AA0000000001")]) "AA0000000001" 100 1 none none none none
        [("mac", PyVal.str "AA0000000001")]).readings =
      (recordReading ⟨[], 0, 0⟩ "AA0000000001" 100 1 none none none none
        [("mac", PyVal.str "AA0000000001")]).readings ∧
    (recordReading (recordReading ⟨[], 0, 0⟩ "AA0000000001" 100 1 none none none none
        [("mac", PyVal.str "AA0000000001")]) "AA0000000001" 100 1 none none none none
        [("mac", PyVal.str "AA0000000001")]).duplicates =
      (recordReading ⟨[], 0, 0⟩ "AA0000000001" 100 1 none none none none
        [("mac", PyVal.str "AA0000000001")]).duplicates + 1 :=
  (c1_record_reading_idempotent ⟨[], 0, 0⟩ "AA0000000001" 100 1 none none none none
    [("mac", PyVal.str "AA0000000001")]).2.2

/-- A concrete password verifier for the lockout scenarios: the stored
hash "H" matches exactly the password "right". -/
def cexCheck : String → String → Bool := fun pw h => pw = "right" && h = "H"

/-- C5 counterexample: for a user whose stored hash matches "right",
three wrong passwords at t = 0 s, 60 s, 120 s (all within 15 minutes) do
NOT all yield the invalid-credentials outcome: the third already yields
the account-locked outcome, because `login` raises `AccountLockedError`
as soon as the incremented fail counter reaches the threshold 3. -/
theorem c5_lockout_counterexample :
    cexCheck "right" "H" = true ∧
    (login cexCheck ⟨"H", 0, none⟩ 0 "wrong").1 = LoginOutcome.invalidCredentials ∧
    (login cexCheck (login cexCheck ⟨"H", 0, none⟩ 0 "wrong").2 60 "wrong").1 =
      LoginOutcome.invalidCredentials ∧
    (login cexCheck
        (login cexCheck (login cexCheck ⟨"H", 0, none⟩ 0 "wrong").2 60 "wrong").2
        120 "wrong").1 = LoginOutcome.accountLocked := by
  decide

/-- C5 (amended): for a user whose stored hash matches password `p` and
a fresh fail counter, the first two wrong passwords yield
invalid-credentials; the THIRD wrong attempt already yields
account-locked (the counter reaches the threshold 3 when it is
incremented); a fourth wrong attempt within 15 minutes of the third also
yields account-locked and changes nothing; and the correct password more
than 15 minutes after the third failure succeeds and resets the fail
counter to 0. -/
theorem c5_lockout_amended (check : String → String → Bool) (hv p w : String)
    (hr : check p hv = true) (hw : check w hv = false)
    (ll0 : Option Int) (t1 t2 t3 t4 t5 : Int)
    (h4 : t4 - t3 < 900) (h5 : 900 ≤ t5 - t3) :
    (login check ⟨hv, 0, ll0⟩ t1 w).1 = LoginOutcome.invalidCredentials ∧
    (login check (login check ⟨hv, 0, ll0⟩ t1 w).2 t2 w).1 =
      LoginOutcome.invalidCredentials ∧
    (login check (login check (login check ⟨hv, 0, ll0⟩ t1 w).2 t2 w).2 t3 w) =
      (LoginOutcome.accountLocked, ⟨hv, 3, some t3⟩) ∧
    (login check ⟨hv, 3, some t3⟩ t4 w) = (LoginOutcome.accountLocked, ⟨hv, 3, some t3⟩) ∧
    (login check ⟨hv, 3, some t3⟩ t5 p) = (LoginOutcome.success, ⟨hv, 0, some t5⟩) := by
  have e1 : login check ⟨hv, 0, ll0⟩ t1 w =
      (LoginOutcome.invalidCredentials, ⟨hv, 1, some t1⟩) := by
    simp [login, LOCK_THRESHOLD, hw]
  have e2 : login check ⟨hv, 1, some t1⟩ t2 w =
      (LoginOutcome.invalidCredentials, ⟨hv, 2, some t2⟩) := by
    simp [login, LOCK_THRESHOLD, hw]
  have e3 : login check ⟨hv, 2, some t2⟩ t3 w =
      (LoginOutcome.accountLocked, ⟨hv, 3, some t3⟩) := by
    simp [login, LOCK_THRESHOLD, hw]
  have e4 : login check ⟨hv, 3, some t3⟩ t4 w =
      (LoginOutcome.accountLocked, ⟨hv, 3, some t3⟩) := by
    simp [login, LOCK_THRESHOLD, LOCK_WINDOW, lockActive, h4]
  have e5 : login check ⟨hv, 3, some t3⟩ t5 p =
      (LoginOutcome.success, ⟨hv, 0, some t5⟩) := by
    have h5not : ¬ (t5 - t3 < 900) := by omega
    simp [login, LOCK_THRESHOLD, LOCK_WINDOW, lockActive, h5not, hr]
  rw [e1]
  rw [e2]
  rw [e3]
  exact ⟨rfl, rfl, rfl, e4, e5⟩

/-- C5 witness for the amended lockout law, at the concrete verifier
`cexCheck`, times 0 s / 60 s / 120 s / 180 s / 1080 s. -/
theorem c5_lockout_witness :
    (login cexCheck ⟨"H", 0, none⟩ 0 "wrong").1 = LoginOutcome.invalidCredentials ∧
    (login cexCheck (login cexCheck ⟨"H", 0, none⟩ 0 "wrong").2 60 "wrong").1 =
      LoginOutcome.invalidCredentials ∧
    (login cexCheck (login cexCheck (login cexCheck ⟨"H", 0, none⟩ 0 "wrong").2
        60 "wrong").2 120 "wrong") = (LoginOutcome.accountLocked, ⟨"H", 3, some 120⟩) ∧
    (login cexCheck ⟨"H", 3, some 120⟩ 180 "wrong") =
      (LoginOutcome.accountLocked, ⟨"H", 3, some 120⟩) ∧
    (login cexCheck ⟨"H", 3, some 120⟩ 1080 "right") =
      (LoginOutcome.success, ⟨"H", 0, some 1080⟩) :=
  c5_lockout_amended cexCheck "H" "right" "wrong" (by decide) (by decide)
    none 0 60 120 180 1080 (by omega) (by omega)

/-- C10: in envelope normalization, a payload whose ts/timestamp field is
absent, numerically zero, an empty string, or an unparseable ISO-8601
string gets the current UTC time as the reading timestamp (never epoch 0
and never a failure); a naive ISO-8601 timestamp is taken as UTC; and the
distinct inputs `ts = 0` and `ts` absent produce the same timestamp. -/
theorem c10_parse_timestamp (fromisoformat : String → Option PyDatetime) (now : Int)
    (p q : Payload) :
    (pyGet p "ts" = none ∧ pyGet p "timestamp" = none →
      parseTimestamp fromisoformat now p = now) ∧
    (pyGet p "ts" = some (PyVal.int 0) ∧ pyGet p "timestamp" = none →
      parseTimestamp fromisoformat now p = now) ∧
    (pyGet p "ts" = some (PyVal.str "") ∧ pyGet p "timestamp" = none →
      parseTimestamp fromisoformat now p = now) ∧
    (∀ s : String, tsRaw p = some (PyVal.str s) → fromisoformat s = none →
      parseTimestamp fromisoformat now p = now) ∧
    (∀ s : String, ∀ k : Int, tsRaw p = some (PyVal.str s) →
      fromisoformat s = some ⟨k, none⟩ → parseTimestamp fromisoformat now p = k) ∧
    (pyGet p "ts" = some (PyVal.int 0) ∧ pyGet p "timestamp" = none →
      pyGet q "ts" = none ∧ pyGet q "timestamp" = none →
      parseTimestamp fromisoformat now p = parseTimestamp fromisoformat now q) := by
  refine ⟨?_, ?_, ?_, ?_, ?_, ?_⟩
  · rintro ⟨h1, h2⟩
    unfold parseTimestamp tsRaw
    rw [h1, h2]
  · rintro ⟨h1, h2⟩
    unfold parseTimestamp tsRaw
    rw [h1]
    simp [pyTruthy, h2]
  · rintro ⟨h1, h2⟩
    unfold parseTimestamp tsRaw
    rw [h1]
    simp [pyTruthy, h2]
  · intro s hraw hiso
    unfold parseTimestamp
    rw [hraw]
    simp [hiso]
  · intro s k hraw hiso
    unfold parseTimestamp
    rw [hraw]
    simp [hiso]
  · rintro ⟨h1, h2⟩ ⟨h3, h4⟩
    unfold parseTimestamp tsRaw
    rw [h1, h3, h4]
    simp [pyTruthy, h2]

/-- C10 witness: a concrete ISO parser that understands exactly one
naive string; `ts = 0`, `ts` absent, empty and unparseable strings all
yield `now = 1000`, and the naive string is taken as UTC. -/
theorem c10_parse_timestamp_witness :
    parseTimestamp (fun s => if s = "2025-01-01T00:00:00" then some ⟨1735689600, none⟩
        else none) 1000 [] = 1000 ∧
    parseTimestamp (fun s => if s = "2025-01-01T00:00:00" then some ⟨1735689600, none⟩
        else none) 1000 [("ts", PyVal.int 0)] = 1000 ∧
    parseTimestamp (fun s => if s = "2025-01-01T00:00:00" then some ⟨1735689600, none⟩
        else none) 1000 [("ts", PyVal.str "")] = 1000 ∧
    parseTimestamp (fun s => if s = "2025-01-01T00:00:00" then some ⟨1735689600, none⟩
        else none) 1000 [("ts", PyVal.str "not-a-date")] = 1000 ∧
    parseTimestamp (fun s => if s = "2025-01-01T00:00:00" then some ⟨1735689600, none⟩
        else none) 1000 [("ts", PyVal.str "2025-01-01T00:00:00")] = 1735689600 ∧
    parseTimestamp (fun s => if s = "2025-01-01T00:00:00" then some ⟨1735689600, none⟩
        else none) 1000 [("ts", PyVal.int 0)] =
      parseTimestamp (fun s => if s = "2025-01-01T00:00:00" then some ⟨1735689600, none⟩
        else none) 1000 [] := by
  refine ⟨(c10_parse_timestamp _ 1000 [] []).1 ⟨rfl, rfl⟩,
    (c10_parse_timestamp _ 1000 [("ts", PyVal.int 0)] []).2.1 ⟨rfl, rfl⟩,
    (c10_parse_timestamp _ 1000 [("ts", PyVal.str "")] []).2.2.1 ⟨rfl, rfl⟩,
    (c10_parse_timestamp _ 1000 [("ts", PyVal.str "not-a-date")] []).2.2.2.1
      "not-a-date" rfl (by decide),
    (c10_parse_timestamp _ 1000 [("ts", PyVal.str "2025-01-01T00:00:00")] []).2.2.2.2.1
      "2025-01-01T00:00:00" 1735689600 rfl (by decide),
    (c10_parse_timestamp _ 1000 [("ts", PyVal.int 0)] []).2.2.2.2.2 ⟨rfl, rfl⟩ ⟨rfl, rfl⟩⟩

/-- C8: for an inbound MQTT message on a subscribed topic whose bound MAC
is uppercase-normalized (the device invariant), a payload whose
uppercased `mac` differs from the subscription's MAC is dead-lettered
with reason `mac_mismatch` and nothing is enqueued (so no reading can be
stored from it), while a matching payload is enqueued as the envelope
`{mac, payload}` on that topic's queue and ingress is recorded for the
MAC. -/
theorem c8_mac_mismatch_routing (s : ConnState) (topic : String) (payload : Payload)
    (sub : TopicSub) (hfound : findTopic s.topics topic = some sub)
    (hupper : strUpper sub.mac = sub.mac) :
    (((pyGet payload "mac").map fun v => strUpper (pyStr v)) ≠ some sub.mac →
      (handleMessage s topic payload).deadLetters = s.deadLetters ++ ["mac_mismatch"] ∧
      (handleMessage s topic payload).topics = s.topics ∧
      (handleMessage s topic payload).ingress = s.ingress) ∧
    (((pyGet payload "mac").map fun v => strUpper (pyStr v)) = some sub.mac →
      (handleMessage s topic payload).topics =
        setTopic s.topics topic
          { sub with queue := sub.queue ++ [⟨sub.mac, payload⟩] } ∧
      (handleMessage s topic payload).ingress = s.ingress ++ [sub.mac] ∧
      (handleMessage s topic payload).deadLetters = s.deadLetters) := by
  have hmsg : handleMessage s topic payload =
      (if ((pyGet payload "mac").map fun v => strUpper (pyStr v)) ≠ some (strUpper sub.mac) then
        { s with deadLetters := s.deadLetters ++ ["mac_mismatch"] }
      else
        { s with
          topics := setTopic s.topics topic
            { sub with queue := sub.queue ++ [⟨sub.mac, payload⟩] },
          ingress := s.ingress ++ [sub.mac] }) := by
    unfold handleMessage
    rw [hfound]
  rw [hupper] at hmsg
  constructor
  · intro hne
    rw [hmsg, if_pos hne]
    exact ⟨rfl, rfl, rfl⟩
  · intro heq
    rw [hmsg, if_neg (not_not_intro heq)]
    exact ⟨rfl, rfl, rfl⟩

/-- C8 witness: subscription bound to AA0000000001; a payload carrying
mac aa0000000002 is dead-lettered with `mac_mismatch` and nothing is
enqueued; the payload aa0000000001 (matching after uppercasing) is
enqueued and recorded as ingress. -/
theorem c8_mac_mismatch_witness :
    (handleMessage ⟨[(("t" : String), ⟨"AA0000000001", 0, []⟩)], 1, [], []⟩ "t"
        [("mac", PyVal.str "aa0000000002")]).deadLetters = [] ++ ["mac_mismatch"] ∧
    (handleMessage ⟨[(("t" : String), ⟨"AA0000000001", 0, []⟩)], 1, [], []⟩ "t"
        [("mac", PyVal.str "aa0000000002")]).topics =
      [(("t" : String), ⟨"AA0000000001", 0, []⟩)] ∧
    (handleMessage ⟨[(("t" : String), ⟨"AA0000000001", 0, []⟩)], 1, [], []⟩ "t"
        [("mac", PyVal.str "aa0000000001")]).topics =
      setTopic [(("t" : String), ⟨"AA0000000001", 0, []⟩)] "t"
        ⟨"AA0000000001", 0, [⟨"AA0000000001", [("mac", PyVal.str "aa0000000001")]⟩]⟩ ∧
    (handleMessage ⟨[(("t" : String), ⟨"AA0000000001", 0, []⟩)], 1, [], []⟩ "t"
        [("mac", PyVal.str "aa0000000001")]).ingress = [] ++ ["AA0000000001"] := by
  have h1 := (c8_mac_mismatch_routing ⟨[(("t" : String), ⟨"AA0000000001", 0, []⟩)], 1, [], []⟩
    "t" [("mac", PyVal.str "aa0000000002")] ⟨"AA0000000001", 0, []⟩ rfl (by decide)).1
    (by decide)
  have h2 := (c8_mac_mismatch_routing ⟨[(("t" : String), ⟨"AA0000000001", 0, []⟩)], 1, [], []⟩
    "t" [("mac", PyVal.str "aa0000000001")] ⟨"AA0000000001", 0, []⟩ rfl (by decide)).2
    (by decide)
  exact ⟨h1.1, h1.2.1, h2.1, h2.2.1⟩

/-- C9 counterexample: the payloads `\x7b"a": \x7b"b": 1, "a": 2\x7d\x7d`
and `\x7b"a": \x7b"a": 2, "b": 1\x7d\x7d` are equal as (nested) maps —
their recursive key-sorted normal forms coincide — yet `_hash_payload`
gives them different digests, because `repr(sorted(payload.items()))`
sorts only the top-level keys and leaves nested dicts in insertion
order.  The stored hash of the first payload also differs from the
sha-256 of its recursively key-sorted canonical representation, refuting
the claim's description of the canonicalization. -/
theorem c9_hash_counterexample :
    PyVal.normalize
        (PyVal.dict [("a", PyVal.dict [("b", PyVal.int 1), ("a", PyVal.int 2)])]) =
      PyVal.normalize
        (PyVal.dict [("a", PyVal.dict [("a", PyVal.int 2), ("b", PyVal.int 1)])]) ∧
    hashPayload [("a", PyVal.dict [("b", PyVal.int 1), ("a", PyVal.int 2)])] ≠
      hashPayload [("a", PyVal.dict [("a", PyVal.int 2), ("b", PyVal.int 1)])] ∧
    hashPayload [("a", PyVal.dict [("b", PyVal.int 1), ("a", PyVal.int 2)])] ≠
      Sha256.sha256Hex (strBytes (specCanonicalString
        [("a", PyVal.dict [("b", PyVal.int 1), ("a", PyVal.int 2)])])) := by
  refine ⟨by decide, by decide, by decide⟩

/-- C9 (amended): the stored hash is the hex sha-256 of
`repr(sorted(payload.items()))`, which sorts keys at the TOP level only;
hence any two payloads that are top-level permutations of each other
with distinct keys (same map, nested values represented identically)
hash to the same value, while payloads equal as maps that differ in
nested key order may hash differently. -/
theorem c9_hash_toplevel_sort (p1 p2 : Payload)
    (hperm : p1.Perm p2) (hnd : (p1.map Prod.fst).Nodup) :
    hashPayload p1 = hashPayload p2 ∧
    hashPayload p1 = Sha256.sha256Hex (strBytes (canonicalString p1)) := by
  refine ⟨?_, rfl⟩
  unfold hashPayload canonicalString
  rw [insertionSort_perm_eq hperm hnd]

/-- C9 witness: reordering the two top-level keys of a flat payload does
not change the hash. -/
theorem c9_hash_toplevel_sort_witness :
    hashPayload [("mac", PyVal.str "AA0000000001"), ("energy", PyVal.str "11.2")] =
      hashPayload [("energy", PyVal.str "11.2"), ("mac", PyVal.str "AA0000000001")] ∧
    hashPayload [("mac", PyVal.str "AA0000000001"), ("energy", PyVal.str "11.2")] =
      Sha256.sha256Hex (strBytes (canonicalString
        [("mac", PyVal.str "AA0000000001"), ("energy", PyVal.str "11.2")])) :=
  c9_hash_toplevel_sort
    [("mac", PyVal.str "AA0000000001"), ("energy", PyVal.str "11.2")]
    [("energy", PyVal.str "11.2"), ("mac", PyVal.str "AA0000000001")]
    (List.Perm.swap _ _ _) (by decide)

/-- C3: every bucket that received at least one reading emits
`energy_kwh = max(0, last_energy − first_energy)` where `first_energy`
and `last_energy` are the energies of the first and last readings
assigned to the bucket in processing order; every emitted energy is
non-negative for every input sequence (meter resets included); and when
the readings are sorted by `ts` (as the store returns them), the first
and last assigned readings are the earliest and latest of the bucket. -/
theorem c3_bucket_energy_clamped (start w : Int) (count : Nat) (rs : List ReadingRow) :
    (∀ p ∈ buildBuckets start w count rs, 0 ≤ p.2.energy) ∧
    (∀ i : Nat, i < count →
      ∀ hne : (rs.filter fun r => Int.fdiv (r.ts - start) w = (i : Int)) ≠ [],
        ((buildBuckets start w count rs)[i]?).map (fun p => p.2.energy) =
          some (max 0
            (((rs.filter fun r => Int.fdiv (r.ts - start) w = (i : Int)).getLast hne).energy_kwh -
             ((rs.filter fun r => Int.fdiv (r.ts - start) w = (i : Int)).head hne).energy_kwh))) ∧
    (List.Pairwise (fun a b : ReadingRow => a.ts ≤ b.ts) rs →
      ∀ i : Nat,
        ∀ hne : (rs.filter fun r => Int.fdiv (r.ts - start) w = (i : Int)) ≠ [],
          ∀ r ∈ rs.filter fun r => Int.fdiv (r.ts - start) w = (i : Int),
            ((rs.filter fun r => Int.fdiv (r.ts - start) w = (i : Int)).head hne).ts ≤ r.ts ∧
            r.ts ≤ ((rs.filter fun r => Int.fdiv (r.ts - start) w = (i : Int)).getLast hne).ts) := by
  refine ⟨?_, ?_, ?_⟩
  · intro p hp
    rw [buildBuckets_eq] at hp
    obtain ⟨i, _, hpi⟩ := List.mem_map.mp hp
    rw [← hpi]
    exact finalizeStats_energy_nonneg _
  · intro i hic hne
    rw [buildBuckets_eq]
    rw [List.getElem?_map, List.getElem?_range hic]
    have hcount : ((rs.filter fun r => Int.fdiv (r.ts - start) w = (i : Int)).foldl
        updateStats emptyStats).count ≠ 0 := by
      rw [foldl_updateStats_count]
      have : (rs.filter fun r => Int.fdiv (r.ts - start) w = (i : Int)).length ≠ 0 :=
        fun h => hne (List.length_eq_zero.mp h)
      simpa [emptyStats] using this
    have hfe : ((rs.filter fun r => Int.fdiv (r.ts - start) w = (i : Int)).foldl
        updateStats emptyStats).firstEnergy =
        some (((rs.filter fun r => Int.fdiv (r.ts - start) w = (i : Int)).head hne).energy_kwh) := by
      rw [foldl_updateStats_firstEnergy]
      simp only [emptyStats]
      rw [List.head?_eq_head hne]
      rfl
    have hle : ((rs.filter fun r => Int.fdiv (r.ts - start) w = (i : Int)).foldl
        updateStats emptyStats).lastEnergy =
        some (((rs.filter fun r => Int.fdiv (r.ts - start) w = (i : Int)).getLast hne).energy_kwh) := by
      rw [foldl_updateStats_lastEnergy]
      rw [List.getLast?_eq_getLast _ hne]
    rw [Option.map_some']
    unfold finalizeStats
    rw [if_pos hcount]
    simp only [hfe, hle, Option.some.injEq]
    rw [max_def]
    split
    · rfl
    · rfl
  · intro hs i hne r hr
    have hsf : List.Pairwise (fun a b : ReadingRow => a.ts ≤ b.ts)
        (rs.filter fun r => Int.fdiv (r.ts - start) w = (i : Int)) :=
      List.Pairwise.sublist (List.filter_sublist rs) hs
    exact ⟨sorted_head_ts_min hsf hne r hr, sorted_getLast_ts_max hsf hne r hr⟩

/-- C3 witness: two readings (energies 10 then 12) in bucket 0 of a
2-bucket window emit `max 0 (last − first)` for that bucket. -/
theorem c3_bucket_energy_witness :
    ((buildBuckets 0 300 2
        [(⟨0, 10, none, none, none⟩ : ReadingRow), ⟨60, 12, none, none, none⟩])[0]?).map
        (fun p => p.2.energy) =
      some (max 0
        ((([(⟨0, 10, none, none, none⟩ : ReadingRow),
              ⟨60, 12, none, none, none⟩].filter
            fun r => Int.fdiv (r.ts - 0) 300 = ((0 : Nat) : Int)).getLast (by decide)).energy_kwh -
         (([(⟨0, 10, none, none, none⟩ : ReadingRow),
              ⟨60, 12, none, none, none⟩].filter
            fun r => Int.fdiv (r.ts - 0) 300 = ((0 : Nat) : Int)).head (by decide)).energy_kwh)) :=
  (c3_bucket_energy_clamped 0 300 2
    [⟨0, 10, none, none, none⟩, ⟨60, 12, none, none, none⟩]).2.1 0 (by decide) (by decide)

/-- The bucket emitted at an in-range index. -/
theorem buildBuckets_at (start w : Int) (count : Nat) (rs : List ReadingRow)
    (i : Nat) (hic : i < count) :
    (buildBuckets start w count rs)[i]? =
      some (start + (i : Int) * w,
        finalizeStats ((rs.filter fun r => Int.fdiv (r.ts - start) w = (i : Int)).foldl
          updateStats emptyStats)) := by
  rw [buildBuckets_eq, List.getElem?_map, List.getElem?_range hic, Option.map_some']

/-- C2 (amended): with window `[start, start + count·w]`: a reading with
`ts = start` is counted in bucket 0; a reading in the last interval
`[end − w, end)` is counted in the last bucket; but a reading with
`ts = end` exactly, although fetched by the inclusive window query, is
skipped by the bucketing (its index `count` is out of range), so the
buckets are as if it were absent. -/
theorem c2_window_boundaries (start w : Int) (count : Nat) (hw : 0 < w) (hc : 0 < count)
    (rs : List ReadingRow) (r : ReadingRow) :
    (r.ts = start →
      ((buildBuckets start w count (rs ++ [r]))[0]?).map (fun p => p.2.count) =
        ((buildBuckets start w count rs)[0]?).map (fun p => p.2.count + 1)) ∧
    (start + ((count : Int) - 1) * w ≤ r.ts ∧ r.ts < start + (count : Int) * w →
      ((buildBuckets start w count (rs ++ [r]))[count - 1]?).map (fun p => p.2.count) =
        ((buildBuckets start w count rs)[count - 1]?).map (fun p => p.2.count + 1)) ∧
    (r.ts = start + (count : Int) * w →
      buildBuckets start w count (rs ++ [r]) = buildBuckets start w count rs ∧
      r ∈ readingsInWindow (rs ++ [r]) start (start + (count : Int) * w)) := by
  refine ⟨?_, ?_, ?_⟩
  · intro hts
    have hidx : Int.fdiv (r.ts - start) w = ((0 : Nat) : Int) := by
      rw [hts, sub_self]
      simp [Int.fdiv]
    rw [buildBuckets_at start w count (rs ++ [r]) 0 hc,
      buildBuckets_at start w count rs 0 hc, Option.map_some', Option.map_some',
      Option.some.injEq]
    simp only [finalizeStats_count, foldl_updateStats_count, List.filter_append]
    rw [List.length_append]
    have : ([r].filter fun x => Int.fdiv (x.ts - start) w = ((0 : Nat) : Int)) = [r] := by
      simp [hidx]
    rw [this]
    simp only [Nat.cast_zero, List.length_singleton]
    omega
  · rintro ⟨h1, h2⟩
    have hlt : count - 1 < count := by omega
    have hidx : Int.fdiv (r.ts - start) w = ((count - 1 : Nat) : Int) := by
      have hcast : ((count - 1 : Nat) : Int) = (count : Int) - 1 := by
        omega
      rw [hcast]
      apply fdiv_eq_of_range hw ((count : Int) - 1) (by linarith)
      have : ((count : Int) - 1 + 1) = (count : Int) := by ring
      rw [this]
      linarith
    rw [buildBuckets_at start w count (rs ++ [r]) (count - 1) hlt,
      buildBuckets_at start w count rs (count - 1) hlt, Option.map_some', Option.map_some',
      Option.some.injEq]
    simp only [finalizeStats_count, foldl_updateStats_count, List.filter_append]
    rw [List.length_append]
    have : ([r].filter fun x => Int.fdiv (x.ts - start) w = ((count - 1 : Nat) : Int)) = [r] := by
      simp [hidx]
    rw [this]
    simp only [List.length_singleton]
    omega
  · intro hts
    have hidx : Int.fdiv (r.ts - start) w = (count : Int) := by
      have : r.ts - start = (count : Int) * w := by rw [hts]; ring
      rw [this]
      apply fdiv_eq_of_range hw (count : Int) (le_refl _)
      have hpos : 0 < w := hw
      nlinarith
    constructor
    · rw [buildBuckets_eq, buildBuckets_eq]
      apply List.map_congr_left
      intro i hi
      rw [List.mem_range] at hi
      have hfilter : ((rs ++ [r]).filter fun x => Int.fdiv (x.ts - start) w = (i : Int)) =
          rs.filter fun x => Int.fdiv (x.ts - start) w = (i : Int) := by
        rw [List.filter_append]
        have : ([r].filter fun x => Int.fdiv (x.ts - start) w = (i : Int)) = [] := by
          simp [hidx]
          omega
        rw [this, List.append_nil]
      rw [hfilter]
    · have hin : start ≤ r.ts ∧ r.ts ≤ start + (count : Int) * w := by
        constructor
        · rw [hts]
          have : (0 : Int) ≤ (count : Int) * w :=
            mul_nonneg (Int.natCast_nonneg count) (le_of_lt hw)
          linarith
        · rw [hts]
      unfold readingsInWindow
      rw [List.mem_filter]
      constructor
      · exact List.mem_append_right rs (List.mem_singleton_self r)
      · simpa using hin

set_option maxRecDepth 4000 in
/-- C2 counterexample: in the 24h window `[0, 86400]` with 5-minute
buckets, the reading at exactly `end_utc = 86400` is fetched by the
inclusive window query, yet the buckets built with it are identical to
the buckets built from no readings at all — it contributes to no
bucket's accumulators, contradicting the claim that it is included in
the aggregation. -/
theorem c2_end_boundary_counterexample :
    (⟨86400, 5, none, none, none⟩ : ReadingRow) ∈
      readingsInWindow [⟨86400, 5, none, none, none⟩] 0 86400 ∧
    buildBuckets 0 300 288 [(⟨86400, 5, none, none, none⟩ : ReadingRow)] =
      buildBuckets 0 300 288 [] := by
  exact ⟨by decide, by rfl⟩

/-- C2 witness for the amended boundary law, at the 24h window
`[0, 86400]`: a reading at 0 lands in bucket 0, a reading at 86399
(inside `[end − 300, end)`) lands in bucket 287, and a reading at 86400
leaves the buckets unchanged while being in the fetched window. -/
theorem c2_window_boundaries_witness :
    (((buildBuckets 0 300 288 ([] ++ [(⟨0, 1, none, none, none⟩ : ReadingRow)]))[0]?).map
        (fun p => p.2.count) =
      ((buildBuckets 0 300 288 [])[0]?).map (fun p => p.2.count + 1)) ∧
    (((buildBuckets 0 300 288 ([] ++ [(⟨86399, 1, none, none, none⟩ : ReadingRow)]))[287]?).map
        (fun p => p.2.count) =
      ((buildBuckets 0 300 288 [])[287]?).map (fun p => p.2.count + 1)) ∧
    (buildBuckets 0 300 288 ([] ++ [(⟨86400, 1, none, none, none⟩ : ReadingRow)]) =
      buildBuckets 0 300 288 [] ∧
    (⟨86400, 1, none, none, none⟩ : ReadingRow) ∈
      readingsInWindow ([] ++ [(⟨86400, 1, none, none, none⟩ : ReadingRow)]) 0 (0 + (288 : Int) * 300)) :=
  ⟨(c2_window_boundaries 0 300 288 (by omega) (by omega) []
      ⟨0, 1, none, none, none⟩).1 rfl,
   (c2_window_boundaries 0 300 288 (by omega) (by omega) []
      ⟨86399, 1, none, none, none⟩).2.1 ⟨by norm_num, by norm_num⟩,
   (c2_window_boundaries 0 300 288 (by omega) (by omega) []
      ⟨86400, 1, none, none, none⟩).2.2 (by norm_num)⟩

/-- `start_utc = end_utc − duration` of `get_device_electricity`. -/
def windowStart (window : DeviceWindow) (now : Int) : Int :=
  now - (WINDOW_CONFIG window).duration

/-- `bucket_count = int(duration // bucket_seconds)`. -/
def windowBucketCount (window : DeviceWindow) : Nat :=
  ((WINDOW_CONFIG window).duration / (WINDOW_CONFIG window).bucket).toNat

/-- The window's fetched readings, ordered by `ts` as
`_get_readings_by_device_id` returns them. -/
def windowReadings (window : DeviceWindow) (now : Int) (rows : List ReadingRow) :
    List ReadingRow :=
  List.insertionSort (fun a b => a.ts ≤ b.ts)
    (readingsInWindow rows (windowStart window now) now)

/-- `get_device_electricity` unfolded to its components. -/
theorem getDeviceElectricity_eq (window : DeviceWindow) (now : Int) (rows : List ReadingRow) :
    getDeviceElectricity window now rows =
      { start_time := windowStart window now
        end_time := now
        interval := (WINDOW_CONFIG window).interval_label
        points := ((buildBuckets (windowStart window now) (WINDOW_CONFIG window).bucket
            (windowBucketCount window) (windowReadings window now rows)).filter
              fun p => 0 < p.2.count).map fun p =>
                ⟨p.1, p.2.power, p.2.energy, p.2.voltage, p.2.current⟩ } := rfl

theorem window_bucket_pos (window : DeviceWindow) : 0 < (WINDOW_CONFIG window).bucket := by
  cases window <;> norm_num [WINDOW_CONFIG]

/-- The emitted point timestamps are exactly the bucket timestamps of
the buckets with at least one assigned reading, in index order. -/
theorem points_timestamps (window : DeviceWindow) (now : Int) (rows : List ReadingRow) :
    (getDeviceElectricity window now rows).points.map (fun p => p.timestamp) =
      ((List.range (windowBucketCount window)).filter fun i : Nat =>
          0 < ((windowReadings window now rows).filter fun r =>
            Int.fdiv (r.ts - windowStart window now) (WINDOW_CONFIG window).bucket =
              (i : Int)).length).map
        fun i : Nat =>
          windowStart window now + (i : Int) * (WINDOW_CONFIG window).bucket := by
  rw [getDeviceElectricity_eq]
  simp only
  rw [buildBuckets_eq, List.filter_map, List.map_map, List.map_map]
  have hpred : ((List.range (windowBucketCount window)).filter
      ((fun p : Int × BucketStats => 0 < p.2.count) ∘ fun i : Nat =>
        (windowStart window now + (i : Int) * (WINDOW_CONFIG window).bucket,
         finalizeStats (((windowReadings window now rows).filter fun r =>
             Int.fdiv (r.ts - windowStart window now) (WINDOW_CONFIG window).bucket =
               (i : Int)).foldl updateStats emptyStats)))) =
      ((List.range (windowBucketCount window)).filter fun i : Nat =>
          0 < ((windowReadings window now rows).filter fun r =>
            Int.fdiv (r.ts - windowStart window now) (WINDOW_CONFIG window).bucket =
              (i : Int)).length) := by
    apply List.filter_congr
    intro i _
    simp [Function.comp, finalizeStats_count, foldl_updateStats_count, emptyStats]
  rw [hpred]
  apply List.map_congr_left
  intro i _
  rfl

/-- C4: every electricity query uses the fixed window table — 24h with
5-minute buckets labelled pt5m (288 buckets), 7d with 30-minute buckets
labelled pt30m (336), 30d with 120-minute buckets labelled pt120m (360)
— materialized from `start_utc = end_utc − duration` with
`bucket_count = duration / bucket`; the response carries the interval
label and the window's start/end instants, and its point list holds one
point exactly per bucket with at least one reading, in ascending
bucket-timestamp order. -/
theorem c4_fixed_windows (window : DeviceWindow) (now : Int) (rows : List ReadingRow) :
    (getDeviceElectricity window now rows).interval = (WINDOW_CONFIG window).interval_label ∧
    (getDeviceElectricity window now rows).start_time = now - (WINDOW_CONFIG window).duration ∧
    (getDeviceElectricity window now rows).end_time = now ∧
    (window = DeviceWindow.last24h →
      WINDOW_CONFIG window = ⟨86400, 300, "pt5m"⟩ ∧ windowBucketCount window = 288) ∧
    (window = DeviceWindow.last7d →
      WINDOW_CONFIG window = ⟨604800, 1800, "pt30m"⟩ ∧ windowBucketCount window = 336) ∧
    (window = DeviceWindow.last30d →
      WINDOW_CONFIG window = ⟨2592000, 7200, "pt120m"⟩ ∧ windowBucketCount window = 360) ∧
    (getDeviceElectricity window now rows).points.map (fun p => p.timestamp) =
      ((List.range (windowBucketCount window)).filter fun i : Nat =>
          0 < ((windowReadings window now rows).filter fun r =>
            Int.fdiv (r.ts - windowStart window now) (WINDOW_CONFIG window).bucket =
              (i : Int)).length).map
        (fun i : Nat =>
          windowStart window now + (i : Int) * (WINDOW_CONFIG window).bucket) ∧
    List.Pairwise (· < ·)
      ((getDeviceElectricity window now rows).points.map fun p => p.timestamp) ∧
    (∀ i : Nat, i < windowBucketCount window →
      ((windowStart window now + (i : Int) * (WINDOW_CONFIG window).bucket) ∈
          (getDeviceElectricity window now rows).points.map (fun p => p.timestamp) ↔
        0 < ((windowReadings window now rows).filter fun r =>
          Int.fdiv (r.ts - windowStart window now) (WINDOW_CONFIG window).bucket =
            (i : Int)).length)) := by
  have hw : 0 < (WINDOW_CONFIG window).bucket := window_bucket_pos window
  refine ⟨rfl, rfl, rfl, ?_, ?_, ?_, points_timestamps window now rows, ?_, ?_⟩
  · rintro rfl
    exact ⟨rfl, rfl⟩
  · rintro rfl
    exact ⟨rfl, rfl⟩
  · rintro rfl
    exact ⟨rfl, rfl⟩
  · rw [points_timestamps, List.pairwise_map]
    have h1 : List.Pairwise (· < ·) ((List.range (windowBucketCount window)).filter fun i : Nat =>
        0 < ((windowReadings window now rows).filter fun r =>
          Int.fdiv (r.ts - windowStart window now) (WINDOW_CONFIG window).bucket =
            (i : Int)).length) :=
      List.Pairwise.sublist (List.filter_sublist _)
        (List.pairwise_lt_range (windowBucketCount window))
    refine h1.imp fun hij => ?_
    have : ((_ : Nat) : Int) < _ := Int.ofNat_lt.mpr hij
    exact add_lt_add_left (mul_lt_mul_of_pos_right this hw) _
  · intro i hic
    rw [points_timestamps]
    constructor
    · intro hmem
      obtain ⟨j, hj, hji⟩ := List.mem_map.mp hmem
      have hji2 : (j : Int) * (WINDOW_CONFIG window).bucket =
          (i : Int) * (WINDOW_CONFIG window).bucket := by linarith
      have hj2 : (j : Int) = (i : Int) :=
        mul_right_cancel₀ (ne_of_gt hw) hji2
      have hj3 : j = i := Int.ofNat_inj.mp hj2
      obtain ⟨_, hcount⟩ := List.mem_filter.mp hj
      rw [hj3] at hcount
      simpa using hcount
    · intro hpos
      refine List.mem_map.mpr ⟨i, List.mem_filter.mpr ⟨List.mem_range.mpr hic, ?_⟩, rfl⟩
      simpa using hpos

/-- C4 witness at the 24h window with no readings: interval pt5m, 288
five-minute buckets, empty point list, and bucket 0's point exists iff
it received a reading. -/
theorem c4_fixed_windows_witness :
    (getDeviceElectricity DeviceWindow.last24h 86400 []).interval =
      (WINDOW_CONFIG DeviceWindow.last24h).interval_label ∧
    (WINDOW_CONFIG DeviceWindow.last24h = ⟨86400, 300, "pt5m"⟩ ∧
      windowBucketCount DeviceWindow.last24h = 288) ∧
    ((windowStart DeviceWindow.last24h 86400 +
        ((0 : Nat) : Int) * (WINDOW_CONFIG DeviceWindow.last24h).bucket) ∈
        (getDeviceElectricity DeviceWindow.last24h 86400 []).points.map
          (fun p => p.timestamp) ↔
      0 < ((windowReadings DeviceWindow.last24h 86400 []).filter fun r =>
        Int.fdiv (r.ts - windowStart DeviceWindow.last24h 86400)
          (WINDOW_CONFIG DeviceWindow.last24h).bucket = ((0 : Nat) : Int)).length) :=
  ⟨(c4_fixed_windows DeviceWindow.last24h 86400 []).1,
   (c4_fixed_windows DeviceWindow.last24h 86400 []).2.2.2.1 rfl,
   (c4_fixed_windows DeviceWindow.last24h 86400 []).2.2.2.2.2.2.2.2 0 (by decide)⟩

end Powermoniter
